import Mathlib

/-!
Verification of the per-frame physics/collision/camera core of the pygame
platformer in `main.py`.

Shallow embedding conventions:
* `pygame.Rect` stores C `int` coordinates; assigning a Python `float` to a
  rect attribute truncates toward zero.  Rect coordinates are modelled as `ℤ`
  and the truncating assignment as `pyTrunc : ℚ → ℤ` (floor for nonnegative
  values, ceiling for negative ones, i.e. truncation toward zero).
* Velocities (`pygame.math.Vector2` floats) are modelled as `ℚ`; the decimal
  literals of the source (0.8, 2.5, 0.1, ...) are taken at their exact
  rational values.
* `Rect.colliderect` on positive-size rects is the strict-overlap test; rects
  that merely touch do not collide.
* Colors, surfaces and all drawing code are rendering-only and are omitted.
-/

namespace Platformer

/-! ### Constants (from the top of main.py) -/

def WIDTH : ℤ := 800
def HEIGHT : ℤ := 600
def GRAVITY : ℚ := 4/5
def TERMINAL_VELOCITY : ℚ := 20
def PLAYER_SPEED : ℚ := 5
def JUMP_SPEED : ℚ := -16

/-! ### Truncation toward zero (pygame Rect attribute assignment) -/

/-- Truncation toward zero, the behaviour of assigning a Python float to a
`pygame.Rect` coordinate (C cast `(int)d`). -/
def pyTrunc (q : ℚ) : ℤ := if q < 0 then ⌈q⌉ else ⌊q⌋

theorem pyTrunc_intCast (n : ℤ) : pyTrunc (n : ℚ) = n := by
  unfold pyTrunc
  split <;> simp

theorem pyTrunc_lt_add_one (q : ℚ) : (pyTrunc q : ℚ) < q + 1 := by
  unfold pyTrunc
  split
  · exact Int.ceil_lt_add_one q
  · calc ((⌊q⌋ : ℤ) : ℚ) ≤ q := Int.floor_le q
      _ < q + 1 := by linarith

theorem sub_one_lt_pyTrunc (q : ℚ) : q - 1 < (pyTrunc q : ℚ) := by
  unfold pyTrunc
  split
  · calc q - 1 < q := by linarith
      _ ≤ ((⌈q⌉ : ℤ) : ℚ) := Int.le_ceil q
  · exact Int.sub_one_lt_floor q

theorem pyTrunc_nonneg_eq_floor {q : ℚ} (h : 0 ≤ q) : pyTrunc q = ⌊q⌋ := by
  unfold pyTrunc
  rw [if_neg (not_lt.mpr h)]

/-! ### Rectangles and the collision predicate -/

/-- Axis-aligned rectangle with integer coordinates (`pygame.Rect`). -/
structure Rect where
  x : ℤ
  y : ℤ
  w : ℤ
  h : ℤ
deriving DecidableEq, Repr

/-- `a.colliderect b` for positive-size rects: strict overlap on both axes.
Rects that merely touch (zero-width intersection) do not collide. -/
def overlaps (a b : Rect) : Prop :=
  a.x < b.x + b.w ∧ a.x + a.w > b.x ∧ a.y < b.y + b.h ∧ a.y + a.h > b.y

instance instDecidableOverlaps (a b : Rect) : Decidable (overlaps a b) :=
  inferInstanceAs (Decidable (_ ∧ _ ∧ _ ∧ _))

/-- Boolean form of `overlaps`, used where the source iterates with tests. -/
def overlapsB (a b : Rect) : Bool := decide (overlaps a b)

/-! ### Input snapshot -/

/-- Per-frame pressed state of the logical input actions.  Key aliases
(LEFT/a, RIGHT/d, UP/w/SPACE) are already merged by the collaborator. -/
structure Keys where
  left : Bool
  right : Bool
  jump : Bool
  restart : Bool
deriving DecidableEq, Repr

/-- No key pressed. -/
def Keys.none : Keys := ⟨false, false, false, false⟩

/-! ### Player -/

/-- State of the `Player` sprite: rect, velocity components, ground-contact
flag and spawn point. -/
structure Player where
  rect : Rect
  vx : ℚ
  vy : ℚ
  on_ground : Bool
  spawn_x : ℤ
  spawn_y : ℤ
deriving DecidableEq, Repr

/-- `Player.handle_input`: horizontal velocity from the pressed keys
(opposing inputs cancel), and a jump impulse when grounded. -/
def Player.handle_input (keys : Keys) (p : Player) : Player :=
  let p := { p with vx := 0 }
  let p :=
    if keys.left && !keys.right then { p with vx := -PLAYER_SPEED }
    else if keys.right && !keys.left then { p with vx := PLAYER_SPEED }
    else p
  if keys.jump && p.on_ground then { p with vy := JUMP_SPEED, on_ground := false }
  else p

/-- `Player.apply_gravity`: `vy = min(vy + GRAVITY, TERMINAL_VELOCITY)`. -/
def Player.apply_gravity (p : Player) : Player :=
  { p with vy := min (p.vy + GRAVITY) TERMINAL_VELOCITY }

/-- `self.rect.x += self.velocity.x` (float sum truncated toward zero on
assignment to the int rect attribute). -/
def Player.moveX (p : Player) : Player :=
  { p with rect := { p.rect with x := pyTrunc ((p.rect.x : ℚ) + p.vx) } }

/-- `self.rect.y += self.velocity.y`. -/
def Player.moveY (p : Player) : Player :=
  { p with rect := { p.rect with y := pyTrunc ((p.rect.y : ℚ) + p.vy) } }

/-- One platform of the `horizontal_collisions` loop body. -/
def hStep (vx : ℚ) (r : Rect) (q : Rect) : Rect :=
  if overlaps r q then
    if vx > 0 then { r with x := q.x - r.w }
    else if vx < 0 then { r with x := q.x + q.w }
    else r
  else r

/-- The rect produced by the `horizontal_collisions` loop. -/
def hLoop (vx : ℚ) (r : Rect) (platforms : List Rect) : Rect :=
  platforms.foldl (hStep vx) r

/-- `Player.horizontal_collisions`: clamp the rect against every overlapped
platform, in list order; velocity is never written. -/
def Player.horizontal_collisions (p : Player) (platforms : List Rect) : Player :=
  { p with rect := hLoop p.vx p.rect platforms }

/-- `self.rect.bottom = platform.rect.top`. -/
def setBottom (r : Rect) (b : ℤ) : Rect := { r with y := b - r.h }

/-- `self.rect.top = platform.rect.bottom`. -/
def setTop (r : Rect) (t : ℤ) : Rect := { r with y := t }

/-- One platform of the `vertical_collisions` loop body. -/
def vStep (p : Player) (q : Rect) : Player :=
  if overlaps p.rect q then
    if p.vy > 0 then
      { p with rect := setBottom p.rect q.y, vy := 0, on_ground := true }
    else if p.vy < 0 then
      { p with rect := setTop p.rect (q.y + q.h), vy := 0 }
    else p
  else p

/-- `Player.vertical_collisions`: reset `on_ground` to false, then resolve
against every overlapped platform in list order. -/
def Player.vertical_collisions (p : Player) (platforms : List Rect) : Player :=
  platforms.foldl vStep { p with on_ground := false }

/-- `Player.update`: input, gravity, horizontal move + resolve, vertical
move + resolve. -/
def Player.update (keys : Keys) (platforms : List Rect) (p : Player) : Player :=
  let p := p.handle_input keys
  let p := p.apply_gravity
  let p := p.moveX
  let p := p.horizontal_collisions platforms
  let p := p.moveY
  let p := p.vertical_collisions platforms
  p

/-- `Player.reset`: teleport to the spawn point and zero the velocity. -/
def Player.reset (p : Player) : Player :=
  { p with rect := { p.rect with x := p.spawn_x, y := p.spawn_y }, vx := 0, vy := 0 }

/-- `Player.set_spawn`: update the spawn point and snap to it. -/
def Player.set_spawn (pos : ℤ × ℤ) (p : Player) : Player :=
  Player.reset { p with spawn_x := pos.1, spawn_y := pos.2 }

/-! ### Enemy -/

/-- State of a patrolling `Enemy`: a 40x40 rect, the patrol interval and the
signed speed. -/
structure Enemy where
  rect : Rect
  min_x : ℤ
  max_x : ℤ
  speed : ℚ
deriving DecidableEq, Repr

/-- `Enemy.update`: step by `speed` (truncated on assignment); if the rect's
left/right edge reached a patrol boundary, negate the speed and re-apply the
reversed step in the same frame. -/
def Enemy.update (e : Enemy) : Enemy :=
  let x1 := pyTrunc ((e.rect.x : ℚ) + e.speed)
  if x1 ≤ e.min_x ∨ x1 + e.rect.w ≥ e.max_x then
    { e with speed := -e.speed,
             rect := { e.rect with x := pyTrunc ((x1 : ℚ) + (-e.speed)) } }
  else
    { e with rect := { e.rect with x := x1 } }

/-- `Enemy(position, patrol, speed)`: a 40x40 sprite at `position`. -/
def mkEnemy (cfg : ℤ × ℤ × ℤ × ℤ × ℚ) : Enemy :=
  ⟨⟨cfg.1, cfg.2.1, 40, 40⟩, cfg.2.2.1, cfg.2.2.2.1, cfg.2.2.2.2⟩

/-! ### Basic facts about horizontal resolution -/

theorem hStep_y (vx : ℚ) (r q : Rect) : (hStep vx r q).y = r.y := by
  unfold hStep; split_ifs <;> rfl

theorem hStep_w (vx : ℚ) (r q : Rect) : (hStep vx r q).w = r.w := by
  unfold hStep; split_ifs <;> rfl

theorem hStep_h (vx : ℚ) (r q : Rect) : (hStep vx r q).h = r.h := by
  unfold hStep; split_ifs <;> rfl

theorem hLoop_y (vx : ℚ) : ∀ (ps : List Rect) (r : Rect), (hLoop vx r ps).y = r.y
  | [], _ => rfl
  | q :: t, r => by
      rw [hLoop, List.foldl_cons]
      rw [show List.foldl (hStep vx) (hStep vx r q) t = hLoop vx (hStep vx r q) t from rfl]
      rw [hLoop_y vx t (hStep vx r q), hStep_y]

theorem hLoop_w (vx : ℚ) : ∀ (ps : List Rect) (r : Rect), (hLoop vx r ps).w = r.w
  | [], _ => rfl
  | q :: t, r => by
      rw [hLoop, List.foldl_cons]
      rw [show List.foldl (hStep vx) (hStep vx r q) t = hLoop vx (hStep vx r q) t from rfl]
      rw [hLoop_w vx t (hStep vx r q), hStep_w]

theorem hLoop_h (vx : ℚ) : ∀ (ps : List Rect) (r : Rect), (hLoop vx r ps).h = r.h
  | [], _ => rfl
  | q :: t, r => by
      rw [hLoop, List.foldl_cons]
      rw [show List.foldl (hStep vx) (hStep vx r q) t = hLoop vx (hStep vx r q) t from rfl]
      rw [hLoop_h vx t (hStep vx r q), hStep_h]

theorem hLoop_cons (vx : ℚ) (r q : Rect) (t : List Rect) :
    hLoop vx r (q :: t) = hLoop vx (hStep vx r q) t := by
  rw [hLoop, List.foldl_cons]; rfl

/-- With rightward velocity, each resolution step only moves the body left. -/
theorem hStep_x_le {vx : ℚ} (hvx : 0 < vx) (r q : Rect) : (hStep vx r q).x ≤ r.x := by
  unfold hStep
  by_cases hov : overlaps r q
  · rw [if_pos hov, if_pos hvx]
    show q.x - r.w ≤ r.x
    have := hov.2.1
    omega
  · rw [if_neg hov]

theorem hLoop_x_le {vx : ℚ} (hvx : 0 < vx) :
    ∀ (ps : List Rect) (r : Rect), (hLoop vx r ps).x ≤ r.x
  | [], _ => le_refl _
  | q :: t, r => by
      rw [hLoop_cons]
      exact le_trans (hLoop_x_le hvx t (hStep vx r q)) (hStep_x_le hvx r q)

/-- With leftward velocity, each resolution step only moves the body right. -/
theorem hStep_x_ge {vx : ℚ} (hvx : vx < 0) (r q : Rect) : r.x ≤ (hStep vx r q).x := by
  unfold hStep
  by_cases hov : overlaps r q
  · rw [if_pos hov, if_neg (by linarith : ¬ vx > 0), if_pos hvx]
    show r.x ≤ q.x + q.w
    have := hov.1
    omega
  · rw [if_neg hov]

theorem hLoop_x_ge {vx : ℚ} (hvx : vx < 0) :
    ∀ (ps : List Rect) (r : Rect), r.x ≤ (hLoop vx r ps).x
  | [], _ => le_refl _
  | q :: t, r => by
      rw [hLoop_cons]
      exact le_trans (hStep_x_ge hvx r q) (hLoop_x_ge hvx t (hStep vx r q))

/-- Rightward case: after the loop, any platform of the list that the body
vertically overlaps and has not fully passed ends up to the right of the body. -/
theorem hLoop_clear_right {vx : ℚ} (hvx : 0 < vx) {P : Rect} :
    ∀ (ps : List Rect) (r : Rect), P ∈ ps →
      r.y < P.y + P.h → r.y + r.h > P.y → r.x < P.x + P.w →
      (hLoop vx r ps).x + r.w ≤ P.x
  | [], _, hmem, _, _, _ => absurd hmem (List.not_mem_nil _)
  | q :: t, r, hmem, hy1, hy2, hx1 => by
      rw [hLoop_cons]
      rcases List.mem_cons.mp hmem with rfl | hmemt
      · by_cases hx2 : r.x + r.w > P.x
        · have hov : overlaps r P := ⟨hx1, hx2, hy1, hy2⟩
          have hstep : hStep vx r P = { r with x := P.x - r.w } := by
            unfold hStep
            rw [if_pos hov, if_pos hvx]
          rw [hstep]
          have h1 := hLoop_x_le hvx t { r with x := P.x - r.w }
          have h2 : ({ r with x := P.x - r.w } : Rect).x = P.x - r.w := rfl
          omega
        · have hov : ¬ overlaps r P := fun h => hx2 h.2.1
          have hstep : hStep vx r P = r := by unfold hStep; rw [if_neg hov]
          rw [hstep]
          have := hLoop_x_le hvx t r
          omega
      · have hy := hStep_y vx r q
        have hh := hStep_h vx r q
        have hw := hStep_w vx r q
        have hx := hStep_x_le hvx r q
        have := hLoop_clear_right hvx t (hStep vx r q) hmemt
          (by omega) (by omega) (by omega)
        omega

/-- Leftward case: after the loop, any platform of the list that the body
vertically overlaps and has not fully passed ends up to the left of the body. -/
theorem hLoop_clear_left {vx : ℚ} (hvx : vx < 0) {P : Rect} :
    ∀ (ps : List Rect) (r : Rect), P ∈ ps →
      r.y < P.y + P.h → r.y + r.h > P.y → r.x + r.w > P.x →
      P.x + P.w ≤ (hLoop vx r ps).x
  | [], _, hmem, _, _, _ => absurd hmem (List.not_mem_nil _)
  | q :: t, r, hmem, hy1, hy2, hx2 => by
      rw [hLoop_cons]
      rcases List.mem_cons.mp hmem with rfl | hmemt
      · by_cases hx1 : r.x < P.x + P.w
        · have hov : overlaps r P := ⟨hx1, hx2, hy1, hy2⟩
          have hstep : hStep vx r P = { r with x := P.x + P.w } := by
            unfold hStep
            rw [if_pos hov, if_neg (by linarith : ¬ vx > 0), if_pos hvx]
          rw [hstep]
          have h1 := hLoop_x_ge hvx t { r with x := P.x + P.w }
          have h2 : ({ r with x := P.x + P.w } : Rect).x = P.x + P.w := rfl
          omega
        · have hov : ¬ overlaps r P := fun h => hx1 h.1
          have hstep : hStep vx r P = r := by unfold hStep; rw [if_neg hov]
          rw [hstep]
          have := hLoop_x_ge hvx t r
          omega
      · have hy := hStep_y vx r q
        have hh := hStep_h vx r q
        have hw := hStep_w vx r q
        have hx := hStep_x_ge hvx r q
        have := hLoop_clear_left hvx t (hStep vx r q) hmemt
          (by omega) (by omega) (by omega)
        omega

theorem moveX_vx (p : Player) : p.moveX.vx = p.vx := rfl

theorem moveX_of_vx_zero (p : Player) (h : p.vx = 0) : p.moveX = p := by
  unfold Player.moveX
  rw [show pyTrunc ((p.rect.x : ℚ) + p.vx) = p.rect.x from by
    rw [h, add_zero, pyTrunc_intCast]]

/-- C1: for every platform P and every player body moved only horizontally
(no vertical contribution) into overlap with P, after `horizontal_collisions`
the body no longer overlaps P and its horizontal velocity is unchanged
(horizontal resolution clamps position only, it never writes velocity). -/
theorem C1_horizontal_resolution (p : Player) (P : Rect) (platforms : List Rect)
    (hmem : P ∈ platforms) (hbefore : ¬ overlaps p.rect P)
    (hafter : overlaps p.moveX.rect P) :
    ¬ overlaps (p.moveX.horizontal_collisions platforms).rect P ∧
    (p.moveX.horizontal_collisions platforms).vx = p.vx := by
  have hvx0 : p.vx ≠ 0 := by
    intro h0
    rw [moveX_of_vx_zero p h0] at hafter
    exact hbefore hafter
  constructor
  · have hrect : (p.moveX.horizontal_collisions platforms).rect
        = hLoop p.vx p.moveX.rect platforms := rfl
    rcases lt_or_gt_of_ne hvx0 with hneg | hpos
    · have key := hLoop_clear_left hneg platforms p.moveX.rect hmem
        hafter.2.2.1 hafter.2.2.2 hafter.2.1
      intro hcon
      have hc1 := hcon.1
      rw [hrect] at hc1
      omega
    · have key := hLoop_clear_right hpos platforms p.moveX.rect hmem
        hafter.2.2.1 hafter.2.2.2 hafter.1
      intro hcon
      have hc2 := hcon.2.1
      have hwq := hLoop_w p.vx platforms p.moveX.rect
      rw [hrect] at hc2
      omega
  · rfl

/-- Witness for C1: a 4x4 body at x = 0 moving right at velocity 5 into a
platform spanning x ∈ [6, 10). -/
theorem C1_horizontal_resolution_witness :
    ¬ overlaps ((Player.moveX ⟨⟨0, 0, 4, 4⟩, 5, 0, false, 0, 0⟩).horizontal_collisions
        [⟨6, 0, 4, 8⟩]).rect ⟨6, 0, 4, 8⟩ ∧
    ((Player.moveX ⟨⟨0, 0, 4, 4⟩, 5, 0, false, 0, 0⟩).horizontal_collisions
        [⟨6, 0, 4, 8⟩]).vx = 5 :=
  C1_horizontal_resolution ⟨⟨0, 0, 4, 4⟩, 5, 0, false, 0, 0⟩ ⟨6, 0, 4, 8⟩ [⟨6, 0, 4, 8⟩]
    (List.mem_singleton.mpr rfl)
    (of_decide_eq_true (by with_unfolding_all rfl))
    (of_decide_eq_true (by with_unfolding_all rfl))

/-! ### Basic facts about vertical resolution -/

theorem vStep_of_not_overlap (p : Player) (q : Rect) (h : ¬ overlaps p.rect q) :
    vStep p q = p := by
  unfold vStep
  rw [if_neg h]

/-- A body with zero vertical velocity is left unchanged by the vertical loop. -/
theorem vfold_id_of_vy_zero : ∀ (ps : List Rect) (p : Player), p.vy = 0 →
    ps.foldl vStep p = p
  | [], _, _ => rfl
  | q :: t, p, h => by
      rw [List.foldl_cons]
      have hst : vStep p q = p := by
        unfold vStep
        by_cases hov : overlaps p.rect q
        · rw [if_pos hov, if_neg (by rw [h]; exact lt_irrefl 0),
            if_neg (by rw [h]; exact lt_irrefl 0)]
        · rw [if_neg hov]
      rw [hst]
      exact vfold_id_of_vy_zero t p h

/-- A body overlapping no platform is left unchanged by the vertical loop. -/
theorem vfold_id_of_no_overlap : ∀ (ps : List Rect) (p : Player),
    (∀ q ∈ ps, ¬ overlaps p.rect q) → ps.foldl vStep p = p
  | [], _, _ => rfl
  | q :: t, p, h => by
      rw [List.foldl_cons, vStep_of_not_overlap p q (h q (List.mem_cons_self q t))]
      exact vfold_id_of_no_overlap t p fun r hr => h r (List.mem_cons_of_mem q hr)

/-- A downward-moving body is resolved against the first platform of the list
it overlaps, and the loop then changes nothing else. -/
theorem vfold_resolve_down : ∀ (ps : List Rect) (p : Player) (P : Rect), 0 < p.vy →
    ps.find? (overlapsB p.rect) = some P →
    ps.foldl vStep p = { p with rect := setBottom p.rect P.y, vy := 0, on_ground := true }
  | [], p, P, _, hfind => by rw [List.find?_nil] at hfind; exact absurd hfind (by simp)
  | q :: t, p, P, hvy, hfind => by
      rw [List.foldl_cons]
      by_cases hov : overlaps p.rect q
      · have hb : overlapsB p.rect q = true := decide_eq_true hov
        rw [List.find?_cons_of_pos t hb, Option.some.injEq] at hfind
        subst hfind
        have hst : vStep p q =
            { p with rect := setBottom p.rect q.y, vy := 0, on_ground := true } := by
          unfold vStep
          rw [if_pos hov, if_pos hvy]
        rw [hst]
        exact vfold_id_of_vy_zero t _ rfl
      · have hb : ¬ overlapsB p.rect q = true := by
          simp only [overlapsB, decide_eq_true_eq]; exact hov
        rw [List.find?_cons_of_neg t hb] at hfind
        rw [vStep_of_not_overlap p q hov]
        exact vfold_resolve_down t p P hvy hfind

/-- C2: vertical resolution resets the ground-contact flag before
re-evaluating (a body overlapping nothing ends with `on_ground = false`);
resolving a downward collision against the first overlapped platform sets the
body's bottom to that platform's top, sets the vertical velocity exactly to 0,
sets ground-contact true, and never leaves the body overlapping the platform
it resolved against. -/
theorem C2_vertical_resolution (p : Player) (platforms : List Rect) :
    ((∀ q ∈ platforms, ¬ overlaps p.rect q) →
      (p.vertical_collisions platforms).on_ground = false) ∧
    (∀ P : Rect, 0 < p.vy → platforms.find? (overlapsB p.rect) = some P →
      (p.vertical_collisions platforms).rect.y + (p.vertical_collisions platforms).rect.h
          = P.y ∧
      (p.vertical_collisions platforms).vy = 0 ∧
      (p.vertical_collisions platforms).on_ground = true ∧
      ¬ overlaps (p.vertical_collisions platforms).rect P) := by
  constructor
  · intro hno
    unfold Player.vertical_collisions
    rw [vfold_id_of_no_overlap platforms { p with on_ground := false } hno]
  · intro P hvy hfind
    unfold Player.vertical_collisions
    rw [vfold_resolve_down platforms { p with on_ground := false } P hvy hfind]
    refine ⟨?_, rfl, rfl, ?_⟩
    · show (P.y - p.rect.h) + p.rect.h = P.y
      omega
    · intro hcon
      have h4 := hcon.2.2.2
      have hy : (setBottom p.rect P.y).y = P.y - p.rect.h := rfl
      have hh : (setBottom p.rect P.y).h = p.rect.h := rfl
      rw [show ({ p with rect := setBottom p.rect P.y, vy := 0, on_ground := true }
          : Player).rect = setBottom p.rect P.y from rfl] at h4
      omega

/-- Witness for C2: a 10x10 body falling with vy = 2 overlapping a platform
whose top is at y = 12 lands exactly on it; a body over an empty platform
list keeps no stale ground contact. -/
theorem C2_vertical_resolution_witness :
    ((Player.vertical_collisions ⟨⟨0, 5, 10, 10⟩, 0, 2, false, 0, 0⟩ [⟨0, 12, 10, 6⟩]).vy = 0 ∧
     (Player.vertical_collisions ⟨⟨0, 5, 10, 10⟩, 0, 2, false, 0, 0⟩
        [⟨0, 12, 10, 6⟩]).on_ground = true) ∧
    (Player.vertical_collisions ⟨⟨0, 5, 10, 10⟩, 0, 0, true, 0, 0⟩ []).on_ground = false := by
  constructor
  · have h := (C2_vertical_resolution ⟨⟨0, 5, 10, 10⟩, 0, 2, false, 0, 0⟩ [⟨0, 12, 10, 6⟩]).2
      ⟨0, 12, 10, 6⟩ (of_decide_eq_true (by with_unfolding_all rfl))
      (of_decide_eq_true (by with_unfolding_all rfl))
    exact ⟨h.2.1, h.2.2.1⟩
  · exact (C2_vertical_resolution ⟨⟨0, 5, 10, 10⟩, 0, 0, true, 0, 0⟩ []).1 (by simp)

/-! ### Enemy patrol band (C3) -/

/-- Counterexample to C3 as stated: the enemy `(1220, 0, 40x40)`, patrol
`[1220, 1500]`, speed `-2.5` satisfies the claim's hypotheses
(`minX ≤ left`, `right ≤ maxX`, `|speed| ≤ maxX - minX - width`), yet after
one `Enemy.update` its left edge is 1219 < minX: the truncation toward zero
of the fractional step makes the reversed step overshoot the boundary. -/
theorem C3_band_counterexample :
    ((⟨⟨1220, 0, 40, 40⟩, 1220, 1500, -5/2⟩ : Enemy).min_x
        ≤ (⟨⟨1220, 0, 40, 40⟩, 1220, 1500, -5/2⟩ : Enemy).rect.x ∧
     (⟨⟨1220, 0, 40, 40⟩, 1220, 1500, -5/2⟩ : Enemy).rect.x
        + (⟨⟨1220, 0, 40, 40⟩, 1220, 1500, -5/2⟩ : Enemy).rect.w
        ≤ (⟨⟨1220, 0, 40, 40⟩, 1220, 1500, -5/2⟩ : Enemy).max_x ∧
     |(⟨⟨1220, 0, 40, 40⟩, 1220, 1500, -5/2⟩ : Enemy).speed| ≤ 240) ∧
    ¬ ((⟨⟨1220, 0, 40, 40⟩, 1220, 1500, -5/2⟩ : Enemy).min_x
        ≤ (Enemy.update ⟨⟨1220, 0, 40, 40⟩, 1220, 1500, -5/2⟩).rect.x) :=
  of_decide_eq_true (by with_unfolding_all rfl)

/-- C3 (amended): under the claim's hypotheses the patrol invariant holds
only up to one pixel of slack: after `Enemy.update`,
`minX - 1 ≤ body.left` and `body.right ≤ maxX + 1`. -/
theorem C3_patrol_band (e : Enemy)
    (h1 : e.min_x ≤ e.rect.x) (h2 : e.rect.x + e.rect.w ≤ e.max_x)
    (h3 : |e.speed| ≤ ((e.max_x - e.min_x - e.rect.w : ℤ) : ℚ)) :
    e.min_x - 1 ≤ e.update.rect.x ∧
    e.update.rect.x + e.update.rect.w ≤ e.max_x + 1 := by
  unfold Enemy.update
  set x1 := pyTrunc ((e.rect.x : ℚ) + e.speed) with hx1
  by_cases htr : x1 ≤ e.min_x ∨ x1 + e.rect.w ≥ e.max_x
  · rw [if_pos htr]
    have b1 : (e.rect.x : ℚ) + e.speed - 1 < (x1 : ℚ) := sub_one_lt_pyTrunc _
    have b2 : (x1 : ℚ) < (e.rect.x : ℚ) + e.speed + 1 := pyTrunc_lt_add_one _
    set x2 := pyTrunc ((x1 : ℚ) + (-e.speed)) with hx2
    have b3 : (x1 : ℚ) + (-e.speed) - 1 < (x2 : ℚ) := sub_one_lt_pyTrunc _
    have b4 : (x2 : ℚ) < (x1 : ℚ) + (-e.speed) + 1 := pyTrunc_lt_add_one _
    have hlow : (e.rect.x : ℚ) - 2 < (x2 : ℚ) := by linarith
    have hhigh : (x2 : ℚ) < (e.rect.x : ℚ) + 2 := by linarith
    have hlowz : e.rect.x - 2 < x2 := by exact_mod_cast hlow
    have hhighz : x2 < e.rect.x + 2 := by exact_mod_cast hhigh
    constructor
    · show e.min_x - 1 ≤ x2
      omega
    · show x2 + e.rect.w ≤ e.max_x + 1
      omega
  · rw [if_neg htr]
    push_neg at htr
    obtain ⟨ha, hb⟩ := htr
    constructor
    · show e.min_x - 1 ≤ x1
      omega
    · show x1 + e.rect.w ≤ e.max_x + 1
      omega

/-- Witness for the amended C3 at the counterexample input: the enemy ends
at 1219, inside the one-pixel slack band. -/
theorem C3_patrol_band_witness :
    1220 - 1 ≤ (Enemy.update ⟨⟨1220, 0, 40, 40⟩, 1220, 1500, -5/2⟩).rect.x ∧
    (Enemy.update ⟨⟨1220, 0, 40, 40⟩, 1220, 1500, -5/2⟩).rect.x
      + (Enemy.update ⟨⟨1220, 0, 40, 40⟩, 1220, 1500, -5/2⟩).rect.w ≤ 1500 + 1 :=
  C3_patrol_band ⟨⟨1220, 0, 40, 40⟩, 1220, 1500, -5/2⟩
    (of_decide_eq_true (by with_unfolding_all rfl))
    (of_decide_eq_true (by with_unfolding_all rfl))
    (of_decide_eq_true (by with_unfolding_all rfl))

/-! ### Truncation of fractional increments (C9) -/

/-- At nonnegative positions, the truncating assignment is a floor, so an
integer position plus a fractional velocity drops the fractional part. -/
theorem pyTrunc_int_add_of_nonneg (x : ℤ) (c : ℚ) (h : 0 ≤ (x : ℚ) + c) :
    pyTrunc ((x : ℚ) + c) = x + ⌊c⌋ := by
  rw [pyTrunc_nonneg_eq_floor h, Int.floor_int_add]

theorem moveY_vy (p : Player) : p.moveY.vy = p.vy := rfl

/-- C9: every rect coordinate is an integer after every operation (the model
types them `ℤ`), and the fractional part of a position increment is truncated
at the assignment and never accumulated across frames: `moveX`/`moveY` write
`pyTrunc (pos + v)`; an enemy with speed 2.5 at a nonnegative position
advances exactly 2 per non-reversing update; a player with `vy = 0.8` at a
nonnegative position does not move vertically, on that frame or on any number
of repeated vertical moves. -/
theorem C9_truncated_increments (p : Player) (e : Enemy) :
    (p.moveY.rect.y = pyTrunc ((p.rect.y : ℚ) + p.vy) ∧
     p.moveX.rect.x = pyTrunc ((p.rect.x : ℚ) + p.vx)) ∧
    (e.speed = 5/2 → 0 ≤ e.rect.x →
      e.min_x < e.rect.x + 2 → e.rect.x + 2 + e.rect.w < e.max_x →
      e.update.rect.x = e.rect.x + 2) ∧
    (p.vy = 4/5 → 0 ≤ p.rect.y →
      ∀ n : ℕ, (Player.moveY^[n] p).rect.y = p.rect.y) := by
  refine ⟨⟨rfl, rfl⟩, ?_, ?_⟩
  · intro hs hx hlo hhi
    have hx1 : pyTrunc ((e.rect.x : ℚ) + e.speed) = e.rect.x + 2 := by
      rw [hs]
      rw [pyTrunc_int_add_of_nonneg e.rect.x (5/2)
        (by have : (0 : ℚ) ≤ (e.rect.x : ℚ) := by exact_mod_cast hx
            have h52 : (0 : ℚ) ≤ 5/2 := by norm_num
            linarith)]
      norm_num
    unfold Enemy.update
    rw [hx1, if_neg (by push_neg; omega)]
  · intro hvy hy n
    induction n with
    | zero => rfl
    | succ k ih =>
        rw [Function.iterate_succ_apply']
        have hkvy : (Player.moveY^[k] p).vy = p.vy := by
          clear ih
          induction k with
          | zero => rfl
          | succ m ihm => rw [Function.iterate_succ_apply', moveY_vy, ihm]
        show pyTrunc (((Player.moveY^[k] p).rect.y : ℚ) + (Player.moveY^[k] p).vy)
            = p.rect.y
        rw [ih, hkvy, hvy]
        rw [pyTrunc_int_add_of_nonneg p.rect.y (4/5)
          (by have : (0 : ℚ) ≤ (p.rect.y : ℚ) := by exact_mod_cast hy
              have h45 : (0 : ℚ) ≤ 4/5 := by norm_num
              linarith)]
      <;> norm_num

/-- Witness for C9: the first enemy of level 1 (speed 2.5) away from its
boundaries, and a grounded-style player with `vy = 0.8` at `y = 330`. -/
theorem C9_truncated_increments_witness :
    (Enemy.update ⟨⟨1240, 330, 40, 40⟩, 1220, 1500, 5/2⟩).rect.x = 1240 + 2 ∧
    (Player.moveY^[3] ⟨⟨80, 330, 40, 60⟩, 0, 4/5, false, 80, 330⟩).rect.y = 330 := by
  have h := C9_truncated_increments ⟨⟨80, 330, 40, 60⟩, 0, 4/5, false, 80, 330⟩
    ⟨⟨1240, 330, 40, 40⟩, 1220, 1500, 5/2⟩
  exact ⟨h.2.1 rfl (by norm_num) (by norm_num) (by norm_num),
    h.2.2 rfl (by norm_num) 3⟩

/-! ### Standing on a platform: the on_ground oscillation (C10) -/

theorem hStep_of_vx_zero {vx : ℚ} (h : vx = 0) (r q : Rect) : hStep vx r q = r := by
  unfold hStep
  by_cases hov : overlaps r q
  · rw [if_pos hov, if_neg (by rw [h]; exact lt_irrefl 0),
      if_neg (by rw [h]; exact lt_irrefl 0)]
  · rw [if_neg hov]

theorem hLoop_id_of_vx_zero {vx : ℚ} (h : vx = 0) :
    ∀ (ps : List Rect) (r : Rect), hLoop vx r ps = r
  | [], _ => rfl
  | q :: t, r => by
      rw [hLoop_cons, hStep_of_vx_zero h]
      exact hLoop_id_of_vx_zero h t r

/-- A nonnegative fractional velocity smaller than one produces no vertical
movement at a nonnegative position. -/
theorem moveY_id_of_small (p : Player) (h1 : 0 ≤ p.rect.y) (h2 : 0 ≤ p.vy)
    (h3 : ⌊p.vy⌋ = 0) : p.moveY = p := by
  unfold Player.moveY
  rw [show pyTrunc ((p.rect.y : ℚ) + p.vy) = p.rect.y from by
    rw [pyTrunc_int_add_of_nonneg _ _
      (add_nonneg (by exact_mod_cast h1) h2), h3, add_zero]]

/-- `List.find?` returns the unique element satisfying the predicate. -/
theorem find?_of_unique {α : Type} : ∀ (ps : List α) (f : α → Bool) (P : α),
    P ∈ ps → f P = true → (∀ Q ∈ ps, f Q = true → Q = P) → ps.find? f = some P
  | [], _, _, hmem, _, _ => absurd hmem (List.not_mem_nil _)
  | q :: t, f, P, hmem, hfP, huniq => by
      by_cases hq : f q = true
      · rw [List.find?_cons_of_pos t hq, huniq q (List.mem_cons_self q t) hq]
      · rw [List.find?_cons_of_neg t hq]
        rcases List.mem_cons.mp hmem with rfl | hmemt
        · exact absurd hfP hq
        · exact find?_of_unique t f P hmemt hfP fun Q hQ hfQ =>
            huniq Q (List.mem_cons_of_mem q hQ) hfQ

/-- C10: a player at rest exactly on top of platform P (bottom = P.top,
vy = 0, on_ground = true) with no input alternates: the first frame raises
vy to 0.8 = GRAVITY but the truncated increment produces no movement and no
overlap, leaving on_ground false; the second frame (vy = 1.6) re-enters P and
is resolved back to the identical resting state with on_ground true.  A jump
input is therefore honored at the resting state and ignored on the
intermediate frame. -/
theorem C10_standing_oscillation (p : Player) (P : Rect) (ps : List Rect)
    (hmem : P ∈ ps)
    (hrest : p.rect.y + p.rect.h = P.y)
    (hvx : p.vx = 0) (hvy : p.vy = 0) (hog : p.on_ground = true)
    (hy0 : 0 ≤ p.rect.y) (hh : 1 ≤ p.rect.h) (hPh : 1 ≤ P.h)
    (hlat1 : P.x < p.rect.x + p.rect.w) (hlat2 : p.rect.x < P.x + P.w)
    (hnov : ∀ Q ∈ ps, ¬ overlaps p.rect Q)
    (huniq : ∀ Q ∈ ps, overlaps { p.rect with y := p.rect.y + 1 } Q → Q = P) :
    (Player.update Keys.none ps p).on_ground = false ∧
    (Player.update Keys.none ps p).rect = p.rect ∧
    (Player.update Keys.none ps p).vy = GRAVITY ∧
    Player.update Keys.none ps (Player.update Keys.none ps p) = p ∧
    (Player.handle_input ⟨false, false, true, false⟩ p).vy = JUMP_SPEED ∧
    (Player.handle_input ⟨false, false, true, false⟩
        (Player.update Keys.none ps p)).vy = (Player.update Keys.none ps p).vy := by
  obtain ⟨⟨rx, ry, rw0, rh⟩, vx, vy, og, sx, sy⟩ := p
  dsimp only at hrest hvx hvy hog hy0 hh hlat1 hlat2 hnov huniq
  subst hvx
  subst hvy
  subst hog
  have g1 : Player.apply_gravity ⟨⟨rx, ry, rw0, rh⟩, 0, 0, true, sx, sy⟩
      = ⟨⟨rx, ry, rw0, rh⟩, 0, 4/5, true, sx, sy⟩ := by
    unfold Player.apply_gravity
    dsimp only
    rw [show min ((0 : ℚ) + GRAVITY) TERMINAL_VELOCITY = 4/5 from by
      norm_num [GRAVITY, TERMINAL_VELOCITY]]
  have g2 : Player.moveX ⟨⟨rx, ry, rw0, rh⟩, 0, 4/5, true, sx, sy⟩
      = ⟨⟨rx, ry, rw0, rh⟩, 0, 4/5, true, sx, sy⟩ := moveX_of_vx_zero _ rfl
  have g3 : Player.horizontal_collisions ⟨⟨rx, ry, rw0, rh⟩, 0, 4/5, true, sx, sy⟩ ps
      = ⟨⟨rx, ry, rw0, rh⟩, 0, 4/5, true, sx, sy⟩ := by
    unfold Player.horizontal_collisions
    rw [hLoop_id_of_vx_zero rfl]
  have g4 : Player.moveY ⟨⟨rx, ry, rw0, rh⟩, 0, 4/5, true, sx, sy⟩
      = ⟨⟨rx, ry, rw0, rh⟩, 0, 4/5, true, sx, sy⟩ :=
    moveY_id_of_small _ hy0 (by norm_num) (by norm_num)
  have g5 : Player.vertical_collisions ⟨⟨rx, ry, rw0, rh⟩, 0, 4/5, true, sx, sy⟩ ps
      = ⟨⟨rx, ry, rw0, rh⟩, 0, 4/5, false, sx, sy⟩ := by
    unfold Player.vertical_collisions
    exact vfold_id_of_no_overlap ps _ hnov
  have hp1 : Player.update Keys.none ps ⟨⟨rx, ry, rw0, rh⟩, 0, 0, true, sx, sy⟩
      = ⟨⟨rx, ry, rw0, rh⟩, 0, 4/5, false, sx, sy⟩ := by
    show Player.vertical_collisions
      (Player.moveY (Player.horizontal_collisions
        (Player.moveX (Player.apply_gravity ⟨⟨rx, ry, rw0, rh⟩, 0, 0, true, sx, sy⟩))
        ps)) ps = _
    rw [g1, g2, g3, g4, g5]
  have g1b : Player.apply_gravity ⟨⟨rx, ry, rw0, rh⟩, 0, 4/5, false, sx, sy⟩
      = ⟨⟨rx, ry, rw0, rh⟩, 0, 8/5, false, sx, sy⟩ := by
    unfold Player.apply_gravity
    dsimp only
    rw [show min ((4/5 : ℚ) + GRAVITY) TERMINAL_VELOCITY = 8/5 from by
      norm_num [GRAVITY, TERMINAL_VELOCITY]]
  have g2b : Player.moveX ⟨⟨rx, ry, rw0, rh⟩, 0, 8/5, false, sx, sy⟩
      = ⟨⟨rx, ry, rw0, rh⟩, 0, 8/5, false, sx, sy⟩ := moveX_of_vx_zero _ rfl
  have g3b : Player.horizontal_collisions ⟨⟨rx, ry, rw0, rh⟩, 0, 8/5, false, sx, sy⟩ ps
      = ⟨⟨rx, ry, rw0, rh⟩, 0, 8/5, false, sx, sy⟩ := by
    unfold Player.horizontal_collisions
    rw [hLoop_id_of_vx_zero rfl]
  have g4b : Player.moveY ⟨⟨rx, ry, rw0, rh⟩, 0, 8/5, false, sx, sy⟩
      = ⟨⟨rx, ry + 1, rw0, rh⟩, 0, 8/5, false, sx, sy⟩ := by
    unfold Player.moveY
    dsimp only
    rw [pyTrunc_int_add_of_nonneg ry (8/5)
      (add_nonneg (by exact_mod_cast hy0) (by norm_num)),
      show ⌊(8/5 : ℚ)⌋ = 1 from by norm_num]
  have hov2 : overlaps ⟨rx, ry + 1, rw0, rh⟩ P :=
    ⟨hlat2, hlat1, by show ry + 1 < P.y + P.h; omega,
      by show ry + 1 + rh > P.y; omega⟩
  have hfind : ps.find? (overlapsB ⟨rx, ry + 1, rw0, rh⟩) = some P :=
    find?_of_unique ps _ P hmem (decide_eq_true hov2)
      fun Q hQ hfQ => huniq Q hQ (of_decide_eq_true hfQ)
  have g5b : Player.vertical_collisions ⟨⟨rx, ry + 1, rw0, rh⟩, 0, 8/5, false, sx, sy⟩ ps
      = ⟨⟨rx, ry, rw0, rh⟩, 0, 0, true, sx, sy⟩ := by
    show List.foldl vStep ⟨⟨rx, ry + 1, rw0, rh⟩, 0, 8/5, false, sx, sy⟩ ps = _
    rw [vfold_resolve_down ps ⟨⟨rx, ry + 1, rw0, rh⟩, 0, 8/5, false, sx, sy⟩ P
      (by norm_num) hfind]
    show (⟨⟨rx, P.y - rh, rw0, rh⟩, 0, 0, true, sx, sy⟩ : Player) = _
    rw [show P.y - rh = ry from by omega]
  have hp2 : Player.update Keys.none ps ⟨⟨rx, ry, rw0, rh⟩, 0, 4/5, false, sx, sy⟩
      = ⟨⟨rx, ry, rw0, rh⟩, 0, 0, true, sx, sy⟩ := by
    show Player.vertical_collisions
      (Player.moveY (Player.horizontal_collisions
        (Player.moveX (Player.apply_gravity ⟨⟨rx, ry, rw0, rh⟩, 0, 4/5, false, sx, sy⟩))
        ps)) ps = _
    rw [g1b, g2b, g3b, g4b, g5b]
  refine ⟨?_, ?_, ?_, ?_, ?_, ?_⟩
  · rw [hp1]
  · rw [hp1]
  · rw [hp1]
    rfl
  · rw [hp1, hp2]
  · rfl
  · rw [hp1]
    rfl

/-- Witness for C10: a 40x60 player resting on a 200x20 platform whose top
is at y = 100. -/
theorem C10_standing_oscillation_witness :
    (Player.update Keys.none [⟨0, 100, 200, 20⟩]
        ⟨⟨50, 40, 40, 60⟩, 0, 0, true, 50, 40⟩).on_ground = false ∧
    (Player.update Keys.none [⟨0, 100, 200, 20⟩]
        ⟨⟨50, 40, 40, 60⟩, 0, 0, true, 50, 40⟩).rect = (⟨50, 40, 40, 60⟩ : Rect) ∧
    (Player.update Keys.none [⟨0, 100, 200, 20⟩]
        ⟨⟨50, 40, 40, 60⟩, 0, 0, true, 50, 40⟩).vy = GRAVITY ∧
    Player.update Keys.none [⟨0, 100, 200, 20⟩]
        (Player.update Keys.none [⟨0, 100, 200, 20⟩]
          ⟨⟨50, 40, 40, 60⟩, 0, 0, true, 50, 40⟩)
      = ⟨⟨50, 40, 40, 60⟩, 0, 0, true, 50, 40⟩ ∧
    (Player.handle_input ⟨false, false, true, false⟩
        ⟨⟨50, 40, 40, 60⟩, 0, 0, true, 50, 40⟩).vy = JUMP_SPEED ∧
    (Player.handle_input ⟨false, false, true, false⟩
        (Player.update Keys.none [⟨0, 100, 200, 20⟩]
          ⟨⟨50, 40, 40, 60⟩, 0, 0, true, 50, 40⟩)).vy
      = (Player.update Keys.none [⟨0, 100, 200, 20⟩]
          ⟨⟨50, 40, 40, 60⟩, 0, 0, true, 50, 40⟩).vy :=
  C10_standing_oscillation ⟨⟨50, 40, 40, 60⟩, 0, 0, true, 50, 40⟩ ⟨0, 100, 200, 20⟩
    [⟨0, 100, 200, 20⟩] (List.mem_singleton.mpr rfl) rfl rfl rfl rfl
    (by norm_num) (by norm_num) (by norm_num) (by norm_num) (by norm_num)
    (by
      intro Q hQ
      rw [List.mem_singleton.mp hQ]
      exact of_decide_eq_true (by with_unfolding_all rfl))
    (by
      intro Q hQ _
      exact List.mem_singleton.mp hQ)

/-! ### Idempotence of collision resolution (C5) -/

/-- One "collision resolution" in the sense of the spec's idempotence claim:
`horizontal_collisions` followed by `vertical_collisions`, with no movement
in between. -/
def Player.resolve (p : Player) (platforms : List Rect) : Player :=
  (p.horizontal_collisions platforms).vertical_collisions platforms

theorem hStep_of_not_overlap {vx : ℚ} (r q : Rect) (h : ¬ overlaps r q) :
    hStep vx r q = r := by
  unfold hStep
  rw [if_neg h]

theorem hLoop_id_of_no_overlap {vx : ℚ} :
    ∀ (ps : List Rect) (r : Rect), (∀ Q ∈ ps, ¬ overlaps r Q) → hLoop vx r ps = r
  | [], _, _ => rfl
  | q :: t, r, h => by
      rw [hLoop_cons, hStep_of_not_overlap r q (h q (List.mem_cons_self q t))]
      exact hLoop_id_of_no_overlap t r fun Q hQ => h Q (List.mem_cons_of_mem q hQ)

theorem vStep_of_vy_zero (p : Player) (q : Rect) (h : p.vy = 0) : vStep p q = p := by
  unfold vStep
  by_cases hov : overlaps p.rect q
  · rw [if_pos hov, if_neg (by rw [h]; exact lt_irrefl 0),
      if_neg (by rw [h]; exact lt_irrefl 0)]
  · rw [if_neg hov]

theorem vStep_down (p : Player) (q : Rect) (hov : overlaps p.rect q) (hvy : 0 < p.vy) :
    vStep p q = { p with rect := setBottom p.rect q.y, vy := 0, on_ground := true } := by
  unfold vStep
  rw [if_pos hov, if_pos hvy]

theorem vStep_up (p : Player) (q : Rect) (hov : overlaps p.rect q) (hvy : p.vy < 0) :
    vStep p q = { p with rect := setTop p.rect (q.y + q.h), vy := 0 } := by
  unfold vStep
  rw [if_pos hov, if_neg (by linarith : ¬ p.vy > 0), if_pos hvy]

/-- After one resolution against a single platform, the body either no longer
overlaps it, or the body's velocity was zero on both axes all along. -/
theorem singleton_first_clears (p : Player) (P : Rect) :
    ¬ overlaps (p.resolve [P]).rect P ∨
    ((p.resolve [P]).vx = 0 ∧ (p.resolve [P]).vy = 0) := by
  have hres : p.resolve [P]
      = vStep ⟨hStep p.vx p.rect P, p.vx, p.vy, false, p.spawn_x, p.spawn_y⟩ P := rfl
  by_cases hov : overlaps p.rect P
  · rcases lt_trichotomy p.vx 0 with hneg | hzero | hpos
    · left
      have hH : hStep p.vx p.rect P = { p.rect with x := P.x + P.w } := by
        unfold hStep
        rw [if_pos hov, if_neg (by linarith : ¬ p.vx > 0), if_pos hneg]
      have hno : ¬ overlaps ({ p.rect with x := P.x + P.w } : Rect) P := by
        intro hc
        have h1 : P.x + P.w < P.x + P.w := hc.1
        exact absurd h1 (lt_irrefl _)
      rw [hres, hH,
        vStep_of_not_overlap ⟨{ p.rect with x := P.x + P.w }, p.vx, p.vy, false,
          p.spawn_x, p.spawn_y⟩ P hno]
      exact hno
    · rcases lt_trichotomy p.vy 0 with hup | hvy0 | hdown
      · left
        have hH : hStep p.vx p.rect P = p.rect := hStep_of_vx_zero hzero _ _
        have hup' : (⟨p.rect, p.vx, p.vy, false, p.spawn_x, p.spawn_y⟩ : Player).vy < 0 :=
          hup
        rw [hres, hH,
          vStep_up ⟨p.rect, p.vx, p.vy, false, p.spawn_x, p.spawn_y⟩ P hov hup']
        intro hc
        have h3 : P.y + P.h < P.y + P.h := hc.2.2.1
        exact absurd h3 (lt_irrefl _)
      · right
        have hH : hStep p.vx p.rect P = p.rect := hStep_of_vx_zero hzero _ _
        rw [hres, hH,
          vStep_of_vy_zero ⟨p.rect, p.vx, p.vy, false, p.spawn_x, p.spawn_y⟩ P hvy0]
        exact ⟨hzero, hvy0⟩
      · left
        have hH : hStep p.vx p.rect P = p.rect := hStep_of_vx_zero hzero _ _
        have hdown' : 0 < (⟨p.rect, p.vx, p.vy, false, p.spawn_x, p.spawn_y⟩ : Player).vy :=
          hdown
        rw [hres, hH,
          vStep_down ⟨p.rect, p.vx, p.vy, false, p.spawn_x, p.spawn_y⟩ P hov hdown']
        intro hc
        have h4 : (setBottom p.rect P.y).y + (setBottom p.rect P.y).h > P.y := hc.2.2.2
        have h5 : (setBottom p.rect P.y).y = P.y - p.rect.h := rfl
        have h6 : (setBottom p.rect P.y).h = p.rect.h := rfl
        omega
    · left
      have hH : hStep p.vx p.rect P = { p.rect with x := P.x - p.rect.w } := by
        unfold hStep
        rw [if_pos hov, if_pos hpos]
      have hno : ¬ overlaps ({ p.rect with x := P.x - p.rect.w } : Rect) P := by
        intro hc
        have h2 : P.x - p.rect.w + p.rect.w > P.x := hc.2.1
        omega
      rw [hres, hH,
        vStep_of_not_overlap ⟨{ p.rect with x := P.x - p.rect.w }, p.vx, p.vy, false,
          p.spawn_x, p.spawn_y⟩ P hno]
      exact hno
  · left
    rw [hres, hStep_of_not_overlap p.rect P hov,
      vStep_of_not_overlap ⟨p.rect, p.vx, p.vy, false, p.spawn_x, p.spawn_y⟩ P hov]
    exact hov

/-- A second resolution against a single platform does not move a body that
either no longer overlaps it or has zero velocity. -/
theorem singleton_second_id (s : Player) (P : Rect)
    (h : ¬ overlaps s.rect P ∨ (s.vx = 0 ∧ s.vy = 0)) :
    (s.resolve [P]).rect = s.rect := by
  have hres : s.resolve [P]
      = vStep ⟨hStep s.vx s.rect P, s.vx, s.vy, false, s.spawn_x, s.spawn_y⟩ P := rfl
  rcases h with hno | ⟨hvx, hvy⟩
  · rw [hres, hStep_of_not_overlap s.rect P hno,
      vStep_of_not_overlap ⟨s.rect, s.vx, s.vy, false, s.spawn_x, s.spawn_y⟩ P hno]
  · rw [hres, hStep_of_vx_zero hvx _ _,
      vStep_of_vy_zero ⟨s.rect, s.vx, s.vy, false, s.spawn_x, s.spawn_y⟩ P hvy]

/-- Counterexample to C5 as stated: a 4x4 body at x = 11 with vx = 1 over the
platform list `[(0,0,8,10), (10,0,5,10)]`.  The first run clamps the body
against the second platform, pushing it into the first; the second run then
moves it again. -/
theorem C5_idempotence_counterexample :
    ¬ ((Player.resolve (Player.resolve ⟨⟨11, 0, 4, 4⟩, 1, 0, false, 0, 0⟩
          [⟨0, 0, 8, 10⟩, ⟨10, 0, 5, 10⟩]) [⟨0, 0, 8, 10⟩, ⟨10, 0, 5, 10⟩]).rect
        = (Player.resolve ⟨⟨11, 0, 4, 4⟩, 1, 0, false, 0, 0⟩
          [⟨0, 0, 8, 10⟩, ⟨10, 0, 5, 10⟩]).rect) :=
  of_decide_eq_true (by with_unfolding_all rfl)

/-- C5 (amended): the second resolution run leaves the position unchanged
whenever the first run left the body overlapping no platform — in particular
always for a single platform.  (With two or more platforms, resolving against
one can push the body into another, and the second run then moves it.) -/
theorem C5_resolution_second_run (p : Player) (platforms : List Rect) (P : Rect) :
    ((∀ Q ∈ platforms, ¬ overlaps (p.resolve platforms).rect Q) →
      ((p.resolve platforms).resolve platforms).rect = (p.resolve platforms).rect) ∧
    ((p.resolve [P]).resolve [P]).rect = (p.resolve [P]).rect := by
  constructor
  · intro h
    have h1 : Player.horizontal_collisions (p.resolve platforms) platforms
        = p.resolve platforms := by
      unfold Player.horizontal_collisions
      rw [hLoop_id_of_no_overlap platforms _ h]
    show (Player.vertical_collisions (Player.horizontal_collisions
        (p.resolve platforms) platforms) platforms).rect = _
    rw [h1]
    unfold Player.vertical_collisions
    rw [vfold_id_of_no_overlap platforms
      ⟨(p.resolve platforms).rect, (p.resolve platforms).vx, (p.resolve platforms).vy,
        false, (p.resolve platforms).spawn_x, (p.resolve platforms).spawn_y⟩ h]
  · exact singleton_second_id (p.resolve [P]) P (singleton_first_clears p P)

/-- Witness for the amended C5: the two-platform counterexample state after
its first run still satisfies the singleton conjunct, and a body resolved
against one platform is left alone by the second run. -/
theorem C5_resolution_second_run_witness :
    ((Player.resolve (Player.resolve ⟨⟨11, 0, 4, 4⟩, 1, 0, false, 0, 0⟩ [⟨10, 0, 5, 10⟩])
        [⟨10, 0, 5, 10⟩]).rect
      = (Player.resolve ⟨⟨11, 0, 4, 4⟩, 1, 0, false, 0, 0⟩ [⟨10, 0, 5, 10⟩]).rect) ∧
    ((Player.resolve (Player.resolve ⟨⟨11, 0, 4, 4⟩, 1, 0, false, 0, 0⟩ [⟨10, 0, 5, 10⟩])
        [⟨10, 0, 5, 10⟩]).rect
      = (Player.resolve ⟨⟨11, 0, 4, 4⟩, 1, 0, false, 0, 0⟩ [⟨10, 0, 5, 10⟩]).rect) :=
  ⟨(C5_resolution_second_run ⟨⟨11, 0, 4, 4⟩, 1, 0, false, 0, 0⟩ [⟨10, 0, 5, 10⟩]
      ⟨10, 0, 5, 10⟩).1
    (by
      intro Q hQ
      rw [List.mem_singleton.mp hQ]
      exact of_decide_eq_true (by with_unfolding_all rfl)),
   (C5_resolution_second_run ⟨⟨11, 0, 4, 4⟩, 1, 0, false, 0, 0⟩ [⟨10, 0, 5, 10⟩]
      ⟨10, 0, 5, 10⟩).2⟩

/-! ### Enemy patrol periodicity (C6) -/

/-- An enemy of width `w`, height `h`, at height `y`, patrolling `[m, M]`,
at horizontal position `x` with (integer-valued) speed `s`. -/
def patrolEnemy (m M w y h x s : ℤ) : Enemy :=
  ⟨⟨x, y, w, h⟩, m, M, (s : ℚ)⟩

/-- With an integer speed the truncations are exact: a non-boundary update
advances by `s`, and a boundary update reverses the speed and lands back on
the pre-step position. -/
theorem enemyUpdate_int (m M w y h x s : ℤ) :
    Enemy.update (patrolEnemy m M w y h x s) =
      if x + s ≤ m ∨ x + s + w ≥ M then patrolEnemy m M w y h x (-s)
      else patrolEnemy m M w y h (x + s) s := by
  unfold patrolEnemy
  simp only [Enemy.update]
  rw [show ((x : ℚ)) + ((s : ℤ) : ℚ) = ((x + s : ℤ) : ℚ) from by push_cast; ring,
    pyTrunc_intCast]
  by_cases hc : x + s ≤ m ∨ x + s + w ≥ M
  · rw [if_pos hc, if_pos hc]
    rw [show ((x + s : ℤ) : ℚ) + -((s : ℤ) : ℚ) = ((x : ℤ) : ℚ) from by push_cast; ring,
      pyTrunc_intCast]
    rw [show ((-s : ℤ) : ℚ) = -((s : ℤ) : ℚ) from by push_cast; ring]
  · rw [if_neg hc, if_neg hc]

/-- Rightward phase: no reversal occurs during the first `d - 1` steps. -/
theorem C6_phaseR (m M w y h s : ℤ) (d : ℕ) (hs : 1 ≤ s)
    (hband : M - m - w = (d : ℤ) * s) :
    ∀ k : ℕ, k + 1 ≤ d → Enemy.update^[k] (patrolEnemy m M w y h m s)
      = patrolEnemy m M w y h (m + (k : ℤ) * s) s := by
  intro k
  induction k with
  | zero =>
      intro _
      rw [Function.iterate_zero_apply,
        show m + ((0 : ℕ) : ℤ) * s = m from by push_cast; ring]
  | succ k ih =>
      intro hk1
      rw [Function.iterate_succ_apply', ih (by omega), enemyUpdate_int]
      have hkd : (k : ℤ) + 1 < (d : ℤ) := by exact_mod_cast (by omega : k + 1 < d)
      have hmul : ((k : ℤ) + 1) * s < (d : ℤ) * s :=
        mul_lt_mul_of_pos_right hkd (by omega)
      have hpos : 0 < ((k : ℤ) + 1) * s :=
        mul_pos (by omega) (by omega)
      rw [if_neg (by push_neg; constructor <;> nlinarith)]
      rw [show m + (k : ℤ) * s + s = m + ((k + 1 : ℕ) : ℤ) * s from by push_cast; ring]

/-- After exactly `d` steps the enemy has hit the right boundary, reversed,
and stands at `M - w - s` moving left. -/
theorem C6_phase1 (m M w y h s : ℤ) (d : ℕ) (hs : 1 ≤ s) (hd : 2 ≤ d)
    (hband : M - m - w = (d : ℤ) * s) :
    Enemy.update^[d] (patrolEnemy m M w y h m s)
      = patrolEnemy m M w y h (M - w - s) (-s) := by
  have hsplit : d = (d - 1) + 1 := by omega
  rw [hsplit, Function.iterate_succ_apply',
    C6_phaseR m M w y h s d hs hband (d - 1) (by omega), enemyUpdate_int]
  have hcast : ((d - 1 : ℕ) : ℤ) = (d : ℤ) - 1 := by
    rw [Nat.cast_sub (by omega : 1 ≤ d)]
    norm_num
  rw [if_pos (Or.inr (by rw [hcast]; nlinarith))]
  rw [show m + ((d - 1 : ℕ) : ℤ) * s = M - w - s from by rw [hcast]; nlinarith]

/-- Leftward phase: no reversal occurs while walking back across the band. -/
theorem C6_phaseL (m M w y h s : ℤ) (d : ℕ) (hs : 1 ≤ s)
    (hband : M - m - w = (d : ℤ) * s) :
    ∀ j : ℕ, j + 2 ≤ d → Enemy.update^[j] (patrolEnemy m M w y h (M - w - s) (-s))
      = patrolEnemy m M w y h (M - w - (1 + (j : ℤ)) * s) (-s) := by
  intro j
  induction j with
  | zero =>
      intro _
      rw [Function.iterate_zero_apply,
        show M - w - (1 + ((0 : ℕ) : ℤ)) * s = M - w - s from by push_cast; ring]
  | succ j ih =>
      intro hj1
      rw [Function.iterate_succ_apply', ih (by omega), enemyUpdate_int]
      have hjd : (j : ℤ) + 2 < (d : ℤ) := by exact_mod_cast (by omega : j + 2 < d)
      have hmul : ((j : ℤ) + 2) * s < (d : ℤ) * s :=
        mul_lt_mul_of_pos_right hjd (by omega)
      have hpos : 0 < ((j : ℤ) + 2) * s :=
        mul_pos (by omega) (by omega)
      rw [if_neg (by push_neg; constructor <;> nlinarith)]
      rw [show M - w - (1 + (j : ℤ)) * s + -s
          = M - w - (1 + ((j + 1 : ℕ) : ℤ)) * s from by push_cast; ring]

/-- The leftward phase takes `d - 1` steps: `d - 2` plain steps and one
reversal landing at `m + s` moving right again. -/
theorem C6_phase2 (m M w y h s : ℤ) (d : ℕ) (hs : 1 ≤ s) (hd : 2 ≤ d)
    (hband : M - m - w = (d : ℤ) * s) :
    Enemy.update^[d - 1] (patrolEnemy m M w y h (M - w - s) (-s))
      = patrolEnemy m M w y h (m + s) s := by
  have hsplit : d - 1 = (d - 2) + 1 := by omega
  rw [hsplit, Function.iterate_succ_apply',
    C6_phaseL m M w y h s d hs hband (d - 2) (by omega), enemyUpdate_int]
  have hcast : ((d - 2 : ℕ) : ℤ) = (d : ℤ) - 2 := by
    rw [Nat.cast_sub (by omega : 2 ≤ d)]
    norm_num
  rw [if_pos (Or.inl (by rw [hcast]; nlinarith))]
  rw [show M - w - (1 + ((d - 2 : ℕ) : ℤ)) * s = m + s from by rw [hcast]; nlinarith,
    neg_neg]

/-- C6 (amended): for an enemy starting at `left = minX` with integer speed
`s ≥ 1` dividing the effective band `maxX - minX - width` into `d ≥ 2` steps,
after `2*d - 1 = 2*(maxX - minX - width)/s - 1` updates the enemy is exactly
at `minX + s` (within one step of `minX`) with its original speed restored
(the sign flipped twice, an even number of times).  The step count claimed by
the spec, `2*(maxX - minX)/s`, ignores the body width and is refuted by the
counterexample. -/
theorem C6_patrol_period (m M w y h s : ℤ) (d : ℕ) (hs : 1 ≤ s) (hd : 2 ≤ d)
    (hband : M - m - w = (d : ℤ) * s) :
    Enemy.update^[2 * d - 1] (patrolEnemy m M w y h m s)
        = patrolEnemy m M w y h (m + s) s ∧
    |(Enemy.update^[2 * d - 1] (patrolEnemy m M w y h m s)).rect.x - m| ≤ s ∧
    (Enemy.update^[2 * d - 1] (patrolEnemy m M w y h m s)).speed = (s : ℚ) := by
  have hmain : Enemy.update^[2 * d - 1] (patrolEnemy m M w y h m s)
      = patrolEnemy m M w y h (m + s) s := by
    have hsplit : 2 * d - 1 = (d - 1) + d := by omega
    rw [hsplit, Function.iterate_add_apply,
      C6_phase1 m M w y h s d hs hd hband,
      C6_phase2 m M w y h s d hs hd hband]
  refine ⟨hmain, ?_, ?_⟩
  · rw [hmain]
    show |m + s - m| ≤ s
    rw [show m + s - m = s from by ring]
    rw [abs_of_nonneg (by omega : (0 : ℤ) ≤ s)]
  · rw [hmain]
    rfl

set_option maxRecDepth 8000 in
/-- Counterexample to C6 as stated: the enemy `(minX 0, maxX 100, width 40,
speed 2)` starting at `minX`.  The claimed step count is
`2*(maxX - minX)/s = 100`, but after 100 updates the enemy is at `x = 34`,
not within one step (2) of `minX`. -/
theorem C6_period_counterexample :
    (Enemy.update^[100] ⟨⟨0, 0, 40, 40⟩, 0, 100, 2⟩).rect.x = 34 ∧
    ¬ (|(Enemy.update^[100] ⟨⟨0, 0, 40, 40⟩, 0, 100, 2⟩).rect.x
        - (⟨⟨0, 0, 40, 40⟩, 0, 100, 2⟩ : Enemy).min_x| ≤ 2) :=
  of_decide_eq_true (by with_unfolding_all rfl)

/-- Witness for the amended C6: with `minX 0, maxX 100, width 40, speed 2`
(`d = 30`), after 59 updates the enemy is back at `x = 2` with speed 2. -/
theorem C6_patrol_period_witness :
    Enemy.update^[2 * 30 - 1] (patrolEnemy 0 100 40 0 40 0 2)
        = patrolEnemy 0 100 40 0 40 (0 + 2) 2 ∧
    |(Enemy.update^[2 * 30 - 1] (patrolEnemy 0 100 40 0 40 0 2)).rect.x - 0| ≤ 2 ∧
    (Enemy.update^[2 * 30 - 1] (patrolEnemy 0 100 40 0 40 0 2)).speed = ((2 : ℤ) : ℚ) :=
  C6_patrol_period 0 100 40 0 40 2 30 (by norm_num) (by norm_num) (by norm_num)

/-! ### Level, camera and level data -/

/-- `rect.centerx` (for the positive widths used by the game). -/
def centerx (r : Rect) : ℤ := r.x + r.w / 2

/-- The clamped camera target of `Level.update`:
`clamp(centerx - WIDTH//2, world_left, max(world_left, world_right - WIDTH))`. -/
def camTarget (wl wr cx : ℤ) : ℤ :=
  let target0 := cx - WIDTH / 2
  let max0 := wr - WIDTH
  let maxo := if max0 < wl then wl else max0
  max wl (min target0 maxo)

/-- The per-frame camera smoothing step:
`offset_x += (target_offset - offset_x) * 0.1`. -/
def camStep (wl wr cx : ℤ) (o : ℚ) : ℚ :=
  o + (((camTarget wl wr cx : ℤ) : ℚ) - o) * (1/10)

/-- Iterated camera smoothing with a constant target. -/
def camIter (wl wr cx : ℤ) (n : ℕ) (o : ℚ) : ℚ :=
  (camStep wl wr cx)^[n] o

/-- Runtime state of a `Level`: geometry, enemies, camera offset, spawn and
goal.  Colors and decorations are rendering-only and omitted. -/
structure Level where
  name : String
  width : ℤ
  world_left : ℤ
  world_right : ℤ
  platforms : List Rect
  enemies : List Enemy
  offset_x : ℚ
  spawn_x : ℤ
  spawn_y : ℤ
  goal_rect : Rect
deriving DecidableEq, Repr

/-- The logic-relevant fields of one `LEVEL_DATA` entry (decorations and
colors are consumed only by rendering). -/
structure LevelData where
  name : String
  width : ℤ
  boundsL : ℤ
  boundsR : ℤ
  spawnX : ℤ
  spawnY : ℤ
  goalX : ℤ
  goalY : ℤ
  goalW : ℤ
  goalH : ℤ
  platforms : List Rect
  enemies : List (ℤ × ℤ × ℤ × ℤ × ℚ)
deriving DecidableEq, Repr, Inhabited

/-- `Level.__init__`: snap the player to the level spawn, build the ground
platform followed by the data platforms, instantiate the enemies, and set
`offset_x = 0.0`. -/
def mkLevel (p : Player) (d : LevelData) : Player × Level :=
  let p1 := p.set_spawn (d.spawnX, d.spawnY)
  let ground : Rect := ⟨d.boundsL - 400, HEIGHT - 40, (d.boundsR - d.boundsL) + 800, 40⟩
  (p1,
   { name := d.name, width := d.width, world_left := d.boundsL, world_right := d.boundsR,
     platforms := ground :: d.platforms, enemies := d.enemies.map mkEnemy,
     offset_x := 0, spawn_x := d.spawnX, spawn_y := d.spawnY,
     goal_rect := ⟨d.goalX, d.goalY, d.goalW, d.goalH⟩ })

/-- `Level.update`: player physics, enemy patrol, hazard respawn, fall-off
respawn, then camera smoothing toward the (possibly reset) player. -/
def Level.update (keys : Keys) (p : Player) (L : Level) : Player × Level :=
  let p := Player.update keys L.platforms p
  let es := L.enemies.map Enemy.update
  let p := if es.any (fun e => overlapsB p.rect e.rect) then p.reset else p
  let p := if p.rect.y > HEIGHT + 200 then p.reset else p
  let o := camStep L.world_left L.world_right (centerx p.rect) L.offset_x
  (p, { L with enemies := es, offset_x := o })

/-- `Level.check_win`: rectangle overlap between player and goal. -/
def Level.check_win (p : Player) (L : Level) : Bool := overlapsB p.rect L.goal_rect

/-- The three entries of `LEVEL_DATA` (logic-relevant fields, with
`HEIGHT = 600` already substituted). -/
def LEVEL_DATA : List LevelData := [
  { name := "Sunny Fields", width := 2400, boundsL := -200, boundsR := 2400,
    spawnX := 80, spawnY := 380, goalX := 2200, goalY := 400, goalW := 40, goalH := 170,
    platforms := [⟨180, 420, 220, 20⟩, ⟨520, 340, 220, 20⟩, ⟨860, 280, 180, 20⟩,
      ⟨1220, 370, 280, 20⟩, ⟨1660, 390, 200, 20⟩, ⟨1940, 310, 160, 20⟩],
    enemies := [(1240, 330, 1220, 1500, 5/2)] },
  { name := "Crystal Cavern", width := 2600, boundsL := -220, boundsR := 2600,
    spawnX := 60, spawnY := 340, goalX := 2380, goalY := 380, goalW := 40, goalH := 180,
    platforms := [⟨240, 400, 160, 20⟩, ⟨470, 300, 200, 20⟩, ⟨760, 240, 180, 20⟩,
      ⟨1050, 320, 220, 20⟩, ⟨1380, 400, 220, 20⟩, ⟨1700, 300, 200, 20⟩,
      ⟨1980, 360, 200, 20⟩, ⟨2160, 280, 200, 20⟩],
    enemies := [(1090, 280, 1050, 1270, 2), (1720, 260, 1700, 1900, 5/2)] },
  { name := "Sunset Heights", width := 2800, boundsL := -250, boundsR := 2800,
    spawnX := 120, spawnY := 360, goalX := 2550, goalY := 340, goalW := 40, goalH := 200,
    platforms := [⟨320, 340, 200, 20⟩, ⟨640, 260, 220, 20⟩, ⟨980, 320, 180, 20⟩,
      ⟨1280, 240, 260, 20⟩, ⟨1620, 300, 220, 20⟩, ⟨1920, 360, 200, 20⟩,
      ⟨2140, 280, 220, 20⟩, ⟨2400, 340, 220, 20⟩],
    enemies := [(1340, 200, 1280, 1540, 3), (2160, 240, 2140, 2360, 14/5)] }
]

/-! ### LevelManager -/

/-- State of the `LevelManager`: the shared player, the level sequence index,
the current level, the announcement timer/text and the victory flag. -/
structure LevelManager where
  player : Player
  current_index : ℕ
  level : Option Level
  transition_timer : ℤ
  transition_text : String
  final_victory : Bool
deriving DecidableEq, Repr

/-- `LevelManager.load_level`: set the index, rebuild the level from its
descriptor (snapping the player to the new spawn), and restart the
announcement timer.  Only ever called with an in-range index. -/
def LevelManager.load_level (st : LevelManager) (i : ℕ) : LevelManager :=
  let d := LEVEL_DATA.getD i default
  let pl := mkLevel st.player d
  { st with
    current_index := i
    player := pl.1
    level := some pl.2
    transition_text := d.name
    transition_timer := 90 }

/-- `LevelManager.update`: no-op returning the victory flag once victorious
(or with no level); otherwise run the level frame, and on a win either load
the next level or set the victory flag. -/
def LevelManager.update (keys : Keys) (st : LevelManager) : LevelManager × Bool :=
  if st.final_victory then (st, st.final_victory)
  else
    match st.level with
    | none => (st, st.final_victory)
    | some L =>
      let pl := Level.update keys st.player L
      let st1 := { st with player := pl.1, level := some pl.2 }
      if Level.check_win pl.1 pl.2 then
        if st1.current_index + 1 < LEVEL_DATA.length then
          (st1.load_level (st1.current_index + 1), false)
        else
          ({ st1 with final_victory := true }, true)
      else (st1, false)

/-- `LevelManager.reset`: restart the campaign from the first level. -/
def LevelManager.reset (st : LevelManager) : LevelManager :=
  LevelManager.load_level { st with final_victory := false } 0

/-! ### Camera convergence (C7) and offset initialization (C8) -/

/-- The camera error contracts by exactly 9/10 each step. -/
theorem camStep_error (wl wr cx : ℤ) (o : ℚ) :
    ((camTarget wl wr cx : ℤ) : ℚ) - camStep wl wr cx o
      = (9/10) * (((camTarget wl wr cx : ℤ) : ℚ) - o) := by
  unfold camStep
  ring

/-- `(9/10)^n` is bounded by `9 / (9 + n)` (Bernoulli). -/
theorem pow_nine_tenths_le (n : ℕ) : ((9 : ℚ)/10) ^ n ≤ 9 / (9 + n) := by
  have h1 : 1 + (n : ℚ) * (1/9) ≤ (1 + 1/9) ^ n :=
    one_add_mul_le_pow (by norm_num) n
  have h2 : ((9 : ℚ) + n) / 9 ≤ (10/9) ^ n := by
    calc ((9 : ℚ) + n) / 9 = 1 + (n : ℚ) * (1/9) := by ring
      _ ≤ (1 + 1/9) ^ n := h1
      _ = (10/9) ^ n := by norm_num
  have h3 : (0 : ℚ) < (9 + n) / 9 := by positivity
  have h4 : (((10 : ℚ)/9) ^ n)⁻¹ ≤ (((9 : ℚ) + n) / 9)⁻¹ :=
    inv_le_inv_of_le h3 h2
  calc ((9 : ℚ)/10) ^ n = (((10 : ℚ)/9) ^ n)⁻¹ := by
        rw [← inv_pow]
        norm_num
    _ ≤ (((9 : ℚ) + n) / 9)⁻¹ := h4
    _ = 9 / (9 + n) := by rw [inv_div]

/-- The distance to the target after `n` steps. -/
theorem camIter_error (wl wr cx : ℤ) :
    ∀ (n : ℕ) (o : ℚ),
      |((camTarget wl wr cx : ℤ) : ℚ) - camIter wl wr cx n o|
        = ((9 : ℚ)/10) ^ n * |((camTarget wl wr cx : ℤ) : ℚ) - o| := by
  intro n
  induction n with
  | zero =>
      intro o
      rw [show camIter wl wr cx 0 o = o from rfl, pow_zero, one_mul]
  | succ k ih =>
      intro o
      rw [show camIter wl wr cx (k + 1) o
          = camStep wl wr cx (camIter wl wr cx k o) from
            Function.iterate_succ_apply' (camStep wl wr cx) k o,
        camStep_error, abs_mul, ih,
        show |(9 : ℚ)/10| = 9/10 from by norm_num, pow_succ]
      ring

/-- C7: with a stationary player the clamped camera target is constant, and
the `offset_x` recurrence of `Level.update` approaches it monotonically: the
distance contracts by exactly 9/10 per frame (so it never increases), the
offset never overshoots the target from either side, and it is within 1 unit
of the target after at most `9 * |target - offset|` frames. -/
theorem C7_camera_convergence (wl wr cx : ℤ) :
    (∀ o : ℚ, |((camTarget wl wr cx : ℤ) : ℚ) - camStep wl wr cx o|
        = (9/10) * |((camTarget wl wr cx : ℤ) : ℚ) - o|) ∧
    (∀ o : ℚ, o ≤ ((camTarget wl wr cx : ℤ) : ℚ) →
        o ≤ camStep wl wr cx o ∧
        camStep wl wr cx o ≤ ((camTarget wl wr cx : ℤ) : ℚ)) ∧
    (∀ o : ℚ, ((camTarget wl wr cx : ℤ) : ℚ) ≤ o →
        camStep wl wr cx o ≤ o ∧
        ((camTarget wl wr cx : ℤ) : ℚ) ≤ camStep wl wr cx o) ∧
    (∀ (o : ℚ) (n : ℕ), 9 * |((camTarget wl wr cx : ℤ) : ℚ) - o| ≤ (n : ℚ) →
        |((camTarget wl wr cx : ℤ) : ℚ) - camIter wl wr cx n o| ≤ 1) := by
  refine ⟨?_, ?_, ?_, ?_⟩
  · intro o
    rw [camStep_error, abs_mul, show |(9 : ℚ)/10| = 9/10 from by norm_num]
  · intro o ho
    have h := camStep_error wl wr cx o
    constructor <;> [nlinarith; nlinarith]
  · intro o ho
    have h := camStep_error wl wr cx o
    constructor <;> [nlinarith; nlinarith]
  · intro o n hn
    have herr := camIter_error wl wr cx n o
    have hbound := pow_nine_tenths_le n
    have habs : (0 : ℚ) ≤ |((camTarget wl wr cx : ℤ) : ℚ) - o| := abs_nonneg _
    have hden : (0 : ℚ) < 9 + n := by positivity
    have h1 : |((camTarget wl wr cx : ℤ) : ℚ) - camIter wl wr cx n o|
        ≤ (9 / (9 + n)) * |((camTarget wl wr cx : ℤ) : ℚ) - o| := by
      rw [herr]
      exact mul_le_mul_of_nonneg_right hbound habs
    have h2 : (9 / ((9 : ℚ) + n)) * |((camTarget wl wr cx : ℤ) : ℚ) - o| ≤ 1 := by
      rw [div_mul_eq_mul_div, div_le_one hden, mul_comm]
      linarith
    linarith

/-- Witness for C7: level-1 style bounds `[0, 2400]`, player center at 500
(target 100), starting offset 99: one step stays between the offset and the
target, and 9 frames bring the offset within 1 of the target. -/
theorem C7_camera_convergence_witness :
    ((99 : ℚ) ≤ camStep 0 2400 500 99 ∧
      camStep 0 2400 500 99 ≤ ((camTarget 0 2400 500 : ℤ) : ℚ)) ∧
    |((camTarget 0 2400 500 : ℤ) : ℚ) - camIter 0 2400 500 9 99| ≤ 1 :=
  ⟨(C7_camera_convergence 0 2400 500).2.1 99
      (of_decide_eq_true (by with_unfolding_all rfl)),
   (C7_camera_convergence 0 2400 500).2.2.2 99 9
      (of_decide_eq_true (by with_unfolding_all rfl))⟩

/-- Counterexample to C8 as stated: `Level.__init__` sets `offset_x` to the
constant 0.0, not to the clamped target implied by the spawn position: for
level 1 the spawn-implied target is -200, so the camera does pan in on level
start. -/
theorem C8_load_offset_counterexample :
    (mkLevel ⟨⟨0, 0, 40, 60⟩, 0, 0, false, 0, 0⟩ (LEVEL_DATA.getD 0 default)).2.offset_x
        = 0 ∧
    camTarget (LEVEL_DATA.getD 0 default).boundsL (LEVEL_DATA.getD 0 default).boundsR
      (centerx (mkLevel ⟨⟨0, 0, 40, 60⟩, 0, 0, false, 0, 0⟩
        (LEVEL_DATA.getD 0 default)).1.rect) = -200 ∧
    ¬ ((mkLevel ⟨⟨0, 0, 40, 60⟩, 0, 0, false, 0, 0⟩ (LEVEL_DATA.getD 0 default)).2.offset_x
        = ((camTarget (LEVEL_DATA.getD 0 default).boundsL (LEVEL_DATA.getD 0 default).boundsR
          (centerx (mkLevel ⟨⟨0, 0, 40, 60⟩, 0, 0, false, 0, 0⟩
            (LEVEL_DATA.getD 0 default)).1.rect) : ℤ) : ℚ)) :=
  of_decide_eq_true (by with_unfolding_all rfl)

/-- C8 (amended): at level (re)load `offset_x` is set to the constant 0.0 —
not to the spawn-implied clamped target, so the camera pans in when that
target is nonzero — and at all other times `offset_x` changes only by the
exponential smoothing step applied to the frame's final player position,
never a hard snap. -/
theorem C8_offset_init_and_smoothing (p : Player) (d : LevelData) (keys : Keys)
    (L : Level) :
    (mkLevel p d).2.offset_x = 0 ∧
    (Level.update keys p L).2.offset_x
      = camStep L.world_left L.world_right (centerx (Level.update keys p L).1.rect)
          L.offset_x :=
  ⟨rfl, rfl⟩

/-! ### LevelManager progression (C4) -/

/-- C4: a win on a non-final level advances `current_index` by exactly one
and rebuilds the level from the next descriptor; a win on the final level
sets the victory flag and returns true; once the victory flag is set every
further `update` is a no-op returning true until `reset`; and `reset`, from
any state including victory, restores `current_index = 0` and the victory
flag to false. -/
theorem C4_level_manager (keys : Keys) (st : LevelManager) :
    (∀ (L : Level) (p1 : Player) (L1 : Level),
      st.final_victory = false → st.level = some L →
      Level.update keys st.player L = (p1, L1) → Level.check_win p1 L1 = true →
      ((st.current_index + 1 < LEVEL_DATA.length →
        ((LevelManager.update keys st).1.current_index = st.current_index + 1 ∧
         (LevelManager.update keys st).1.level
            = some (mkLevel p1 (LEVEL_DATA.getD (st.current_index + 1) default)).2 ∧
         (LevelManager.update keys st).1.final_victory = false ∧
         (LevelManager.update keys st).2 = false)) ∧
       (¬ (st.current_index + 1 < LEVEL_DATA.length) →
        ((LevelManager.update keys st).1.final_victory = true ∧
         (LevelManager.update keys st).2 = true)))) ∧
    (st.final_victory = true → LevelManager.update keys st = (st, true)) ∧
    (st.reset.current_index = 0 ∧ st.reset.final_victory = false) := by
  obtain ⟨pl, ci, lev, tt, ttext, fv⟩ := st
  refine ⟨?_, ?_, ?_, ?_⟩
  · intro L p1 L1 hfv hlev hup hwin
    dsimp only at hfv hlev hup
    subst hfv
    subst hlev
    have hred : LevelManager.update keys ⟨pl, ci, some L, tt, ttext, false⟩
        = (if Level.check_win (Level.update keys pl L).1 (Level.update keys pl L).2 then
            if ci + 1 < LEVEL_DATA.length then
              (LevelManager.load_level
                ⟨(Level.update keys pl L).1, ci, some (Level.update keys pl L).2,
                  tt, ttext, false⟩ (ci + 1), false)
            else
              (⟨(Level.update keys pl L).1, ci, some (Level.update keys pl L).2,
                  tt, ttext, true⟩, true)
          else
            (⟨(Level.update keys pl L).1, ci, some (Level.update keys pl L).2,
                tt, ttext, false⟩, false)) := rfl
    rw [hred, hup]
    dsimp only
    rw [if_pos hwin]
    constructor
    · intro hidx
      rw [if_pos hidx]
      exact ⟨rfl, rfl, rfl, rfl⟩
    · intro hidx
      rw [if_neg hidx]
      exact ⟨rfl, rfl⟩
  · intro hfv
    dsimp only at hfv
    subst hfv
    rfl
  · rfl
  · rfl

/-- A manager state on the final level with the player standing inside the
goal region of level 3. -/
def finalLevelState : LevelManager :=
  { player := ⟨⟨2550, 500, 40, 60⟩, 0, 0, false, 120, 360⟩
    current_index := 2
    level := some (mkLevel ⟨⟨0, 0, 40, 60⟩, 0, 0, false, 0, 0⟩ (LEVEL_DATA.getD 2 default)).2
    transition_timer := 0
    transition_text := "Sunset Heights"
    final_victory := false }

/-- The same state after the final victory flag is set. -/
def victoryState : LevelManager := { finalLevelState with final_victory := true }

/-- A manager state on the first level with the player standing inside the
goal region of level 1. -/
def levelZeroWinState : LevelManager :=
  { player := ⟨⟨2200, 480, 40, 60⟩, 0, 0, false, 80, 380⟩
    current_index := 0
    level := some (mkLevel ⟨⟨0, 0, 40, 60⟩, 0, 0, false, 0, 0⟩ (LEVEL_DATA.getD 0 default)).2
    transition_timer := 0
    transition_text := "Sunny Fields"
    final_victory := false }

set_option maxRecDepth 8000 in
/-- Witness for C4: winning the final level sets the victory flag and
returns true; updating a victorious state is a no-op; resetting restores
index 0 and clears the flag. -/
theorem C4_level_manager_witness :
    ((LevelManager.update Keys.none levelZeroWinState).1.current_index = 0 + 1 ∧
     (LevelManager.update Keys.none levelZeroWinState).2 = false) ∧
    ((LevelManager.update Keys.none finalLevelState).1.final_victory = true ∧
     (LevelManager.update Keys.none finalLevelState).2 = true) ∧
    LevelManager.update Keys.none victoryState = (victoryState, true) ∧
    (finalLevelState.reset.current_index = 0 ∧
     finalLevelState.reset.final_victory = false) := by
  refine ⟨?_, ?_, ?_, ?_⟩
  · have h := (C4_level_manager Keys.none levelZeroWinState).1
      (mkLevel ⟨⟨0, 0, 40, 60⟩, 0, 0, false, 0, 0⟩ (LEVEL_DATA.getD 0 default)).2
      (Level.update Keys.none levelZeroWinState.player
        (mkLevel ⟨⟨0, 0, 40, 60⟩, 0, 0, false, 0, 0⟩ (LEVEL_DATA.getD 0 default)).2).1
      (Level.update Keys.none levelZeroWinState.player
        (mkLevel ⟨⟨0, 0, 40, 60⟩, 0, 0, false, 0, 0⟩ (LEVEL_DATA.getD 0 default)).2).2
      rfl rfl rfl
      (of_decide_eq_true (by with_unfolding_all rfl))
    have h1 := h.1 (of_decide_eq_true (by with_unfolding_all rfl))
    exact ⟨h1.1, h1.2.2.2⟩
  · exact (C4_level_manager Keys.none finalLevelState).1
      (mkLevel ⟨⟨0, 0, 40, 60⟩, 0, 0, false, 0, 0⟩ (LEVEL_DATA.getD 2 default)).2
      (Level.update Keys.none finalLevelState.player
        (mkLevel ⟨⟨0, 0, 40, 60⟩, 0, 0, false, 0, 0⟩ (LEVEL_DATA.getD 2 default)).2).1
      (Level.update Keys.none finalLevelState.player
        (mkLevel ⟨⟨0, 0, 40, 60⟩, 0, 0, false, 0, 0⟩ (LEVEL_DATA.getD 2 default)).2).2
      rfl rfl rfl
      (of_decide_eq_true (by with_unfolding_all rfl))
      |>.2 (of_decide_eq_true (by with_unfolding_all rfl))
  · exact (C4_level_manager Keys.none victoryState).2.1 rfl
  · exact (C4_level_manager Keys.none finalLevelState).2.2

end Platformer
